import Mathlib

/-!
Verification development for the AutoStream add-on (src/index.js, manifest
version 1.8.2; the same file also carries a 1.9.3 variant after a document
separator, which differs only in the configure plumbing and in a pass-through
result assembler that is embedded here as well).

The stream-selection core is embedded shallowly:
* candidate records (upstream stream objects) become the structure `Stream`
  with `Option` fields for the weakly-typed JS fields;
* JS strings are Lean `String`s; case-insensitive substring tests are done on
  lower-cased character lists;
* JS numbers in the seed / threshold arithmetic are modelled as `ℚ` (the seed
  counts handled by the code are integers, and the ratio / delta comparisons
  of `isMuchFaster` are exact on them);
* `Math.log1p(seeds) * 200` in the ranking function is modelled with the real
  logarithm, so `rankStream` lands in `ℝ`;
* the three seed-extraction regular expressions are implemented as explicit
  left-to-right scanners with the same leftmost-match, greedy-with-backtrack
  semantics (`\b` = word boundary on `[A-Za-z0-9_]`, `\d` = ASCII digits,
  `\s` = whitespace); the `/i` flag is modelled by lower-casing the text first
  (all pattern letters are lower case, and word/space classes are invariant
  under lower-casing);
* the stream handler's `try { ... } catch { return { streams: [] } }` boundary
  is modelled with `Except`.
-/

namespace AutoStream

/-! ## Character / string helpers (JS string primitives) -/

/-- ASCII lower-casing of one character, as `String.prototype.toLowerCase`
acts on the ASCII range used by all keywords in the source. -/
def lcChar (c : Char) : Char := c.toLower

/-- Lower-cased character list of a string: the model of
`label.toLowerCase()` used for all case-insensitive matching. -/
def lcStr (s : String) : List Char := s.toList.map lcChar

/-- Substring test on character lists: `hay` contains `pat` contiguously.
Model of `String.prototype.includes`. -/
def containsSub (pat : List Char) : List Char → Bool
  | [] => pat.isEmpty
  | c :: rest => pat.isPrefixOf (c :: rest) || containsSub pat rest

/-- `s.toLowerCase().includes(pat)` for a (lower-case) pattern `pat`. -/
def strHas (s : String) (pat : String) : Bool := containsSub pat.toList (lcStr s)

/-- Prefix test on strings via their character lists
(model of `String.prototype.startsWith`, case sensitive). -/
def strStarts (s pat : String) : Bool := pat.toList.isPrefixOf s.toList

/-- `Array.prototype.join(" ")` on a list of strings. -/
def joinSpace : List String → String
  | [] => ""
  | [s] => s
  | s :: rest => s ++ " " ++ joinSpace rest

/-! ## The candidate record -/

/-- The `behaviorHints` object of a stream record (only the members the
source reads or writes). -/
structure BHints where
  notWebReady : Option Bool := none
  bingeGroup : Option String := none
deriving DecidableEq, Repr

/-- A raw upstream stream record: every field the v1.8.2 handler reads.
`Option` encodes JS field absence; seed counts are `ℚ` (JS numbers). -/
structure Stream where
  title : Option String := none
  name : Option String := none
  description : Option String := none
  seeders : Option ℚ := none
  seeds : Option ℚ := none
  url : Option String := none
  externalUrl : Option String := none
  magnet : Option String := none
  infoHash : Option String := none
  infohash : Option String := none
  hash : Option String := none
  behaviorHints : Option BHints := none
deriving DecidableEq, Repr

/-- JS string truthiness for an optional string field: `undefined` and `""`
are falsy. Returns the field's value when truthy. -/
def truthyStr : Option String → Option String
  | some s => if s = "" then none else some s
  | none => none

/-- `a || b` for optional strings, keeping the first truthy value
(`none` when neither is truthy, which is exactly when the JS value is
falsy and fails a subsequent `if (!x)` test). -/
def jsOrStr (a b : Option String) : Option String :=
  match truthyStr a with
  | some s => some s
  | none => truthyStr b

/-- `a || b || dflt` where `dflt` is a (truthy or not) string default. -/
def jsOrStr3 (a b : Option String) (dflt : String) : String :=
  match jsOrStr a b with
  | some s => s
  | none => dflt

/-! ## Quality tags (source lines 52-78) -/

/-- `qualityTag(label)`: first-match-wins, case-insensitive substring search
in the fixed order 2160/4k/uhd, 1440/2k, 1080, 720, 480, cam, default SD. -/
def qualityTag (label : String) : String :=
  if strHas label "2160" || strHas label "4k" || strHas label "uhd" then "2160p"
  else if strHas label "1440" || strHas label "2k" then "1440p"
  else if strHas label "1080" then "1080p"
  else if strHas label "720" then "720p"
  else if strHas label "480" then "480p"
  else if strHas label "cam" then "CAM"
  else "SD"

/-- `displayTag(tag)`: human label, 2160p→4K, 1440p→2K, otherwise itself. -/
def displayTag (tag : String) : String :=
  if tag = "2160p" then "4K"
  else if tag = "1440p" then "2K"
  else tag

/-- `qualityScoreFromTag(tag)`: the fixed tier magnitudes. -/
def qualityScoreFromTag (tag : String) : ℚ :=
  if tag = "2160p" then 4000
  else if tag = "1440p" then 1440
  else if tag = "1080p" then 1080
  else if tag = "720p" then 720
  else if tag = "480p" then 480
  else if tag = "CAM" then 10
  else 360

/-- `is1080pLabel(label)`. -/
def is1080pLabel (label : String) : Bool := qualityTag label == "1080p"

/-- `combinedLabel(st)`: `[title, name, description].filter(Boolean).join(" ")`
(absent and empty strings are dropped). -/
def combinedLabel (st : Stream) : String :=
  joinSpace (([st.title, st.name, st.description].filterMap id).filter (fun s => !(s == "")))

/-! ## Seed extraction (source lines 80-89)

The three regular expressions

  1. `/\b(\d{2,6})\s*(?:seed(?:ers)?|seeds|s:|se:)/i`
  2. `/\[(\d{2,6})\s*seeds?\]/i`
  3. `/\bseeds?\s*[:\-]?\s*(\d{2,6})\b/i`

are implemented as leftmost-match scanners over the lower-cased character
list.  The greedy quantifier `\d{2,6}` is tried with backtracking from the
longest repetition down to 2 (`tryFrom`); the greedy `\s*` pieces need no
backtracking because no alternative that follows them can start with a
whitespace character (they all start with a letter, digit or `]`). -/

/-- JS `\w` class: `[A-Za-z0-9_]`. -/
def wordChar (c : Char) : Bool := c.isAlphanum || c == '_'

/-- JS `\s` on the ASCII whitespace the labels contain. -/
def jsSpace (c : Char) : Bool := c.isWhitespace

/-- Word boundary `\b` immediately before a word character, given the
preceding character (`none` at the start of the text). -/
def bdStart : Option Char → Bool
  | none => true
  | some p => !wordChar p

/-- Word boundary `\b` immediately after a word character, given the
following character (`none` at the end of the text). -/
def bdEnd : Option Char → Bool
  | none => true
  | some c => !wordChar c

/-- Digit list to number, as `parseInt(m[1], 10)` on a capture of digits. -/
def digitsToNat (ds : List Char) : Nat :=
  ds.foldl (fun a c => a * 10 + (c.toNat - '0'.toNat)) 0

/-- Backtracking loop for a greedy `(\d{2,6})` capture: `ds` is the maximal
digit run at the current position, `rest` the text after it; `k` counts down
from `min ds.length 6`; repetitions shorter than 2 fail. -/
def tryFrom (ds rest : List Char) (cont : List Char → List Char → Option Nat) : Nat → Option Nat
  | 0 => none
  | k + 1 =>
    if k + 1 < 2 then none
    else
      match cont (ds.take (k + 1)) (ds.drop (k + 1) ++ rest) with
      | some n => some n
      | none => tryFrom ds rest cont k

/-- The alternation `(?:seed(?:ers)?|seeds|s:|se:)` as a prefix test
(`seeds` is subsumed by `seed`; nothing follows it in pattern 1). -/
def alt1 (l : List Char) : Bool :=
  "seed".toList.isPrefixOf l || "s:".toList.isPrefixOf l || "se:".toList.isPrefixOf l

/-- One anchored attempt of pattern 1 at the current position. -/
def tryMatch1 (prev : Option Char) (l : List Char) : Option Nat :=
  if bdStart prev then
    let ds := l.takeWhile Char.isDigit
    let rest := l.dropWhile Char.isDigit
    tryFrom ds rest
      (fun taken after => if alt1 (after.dropWhile jsSpace) then some (digitsToNat taken) else none)
      (min ds.length 6)
  else none

/-- Leftmost match of pattern 1 over the whole text. -/
def scan1 : Option Char → List Char → Option Nat
  | _, [] => none
  | prev, c :: cs =>
    match tryMatch1 prev (c :: cs) with
    | some n => some n
    | none => scan1 (some c) cs

/-- One anchored attempt of pattern 2 (`\[(\d{2,6})\s*seeds?\]`). -/
def tryMatch2 : List Char → Option Nat
  | '[' :: rest =>
    let ds := rest.takeWhile Char.isDigit
    let rest2 := rest.dropWhile Char.isDigit
    tryFrom ds rest2
      (fun taken after =>
        let a := after.dropWhile jsSpace
        if "seeds]".toList.isPrefixOf a || "seed]".toList.isPrefixOf a then
          some (digitsToNat taken)
        else none)
      (min ds.length 6)
  | _ => none

/-- Leftmost match of pattern 2 over the whole text. -/
def scan2 : List Char → Option Nat
  | [] => none
  | c :: cs =>
    match tryMatch2 (c :: cs) with
    | some n => some n
    | none => scan2 cs

/-- The tail `\s*[:\-]?\s*(\d{2,6})\b` of pattern 3. -/
def after3 (l : List Char) : Option Nat :=
  let l1 := l.dropWhile jsSpace
  let l2 :=
    match l1 with
    | c :: cs => if c == ':' || c == '-' then cs else l1
    | [] => l1
  let l3 := l2.dropWhile jsSpace
  let ds := l3.takeWhile Char.isDigit
  let rest := l3.dropWhile Char.isDigit
  tryFrom ds rest
    (fun taken after => if bdEnd after.head? then some (digitsToNat taken) else none)
    (min ds.length 6)

/-- One anchored attempt of pattern 3 (`\bseeds?` then `after3`); the greedy
optional `s` is tried first, with backtracking to the bare `seed`. -/
def tryMatch3 (prev : Option Char) (l : List Char) : Option Nat :=
  if bdStart prev && "seed".toList.isPrefixOf l then
    match (if "seeds".toList.isPrefixOf l then after3 (l.drop 5) else none) with
    | some n => some n
    | none => after3 (l.drop 4)
  else none

/-- Leftmost match of pattern 3 over the whole text. -/
def scan3 : Option Char → List Char → Option Nat
  | _, [] => none
  | prev, c :: cs =>
    match tryMatch3 prev (c :: cs) with
    | some n => some n
    | none => scan3 (some c) cs

/-- `r1.exec(text) || r2.exec(text) || r3.exec(text)` on the lower-cased
text, yielding the captured count. -/
def seedScan (text : List Char) : Option Nat :=
  match scan1 none text with
  | some n => some n
  | none =>
    match scan2 text with
    | some n => some n
    | none => scan3 none text

/-- `extractSeeders(st)`: explicit numeric `seeders`/`seeds` field first,
then the regex cascade over the combined label, else 0. -/
def extractSeeders (st : Stream) : ℚ :=
  match st.seeders with
  | some n => n
  | none =>
    match st.seeds with
    | some n => n
    | none =>
      match seedScan (lcStr (combinedLabel st)) with
      | some n => (n : ℚ)
      | none => 0

/-! ## Preference bonus and ranking (source lines 90-105) -/

/-- The release-type keyword list of `preferenceBonus` (note: the source
uses the unhyphenated forms, and both "blu" and "bluray"). -/
def releaseKeys : List String := ["webdl", "webrip", "blu", "bluray", "remux"]

/-- The debrid-provider keyword list of `preferenceBonus`. -/
def debridKeys : List String := ["real-debrid", "rd", "premiumize", "alldebrid", "ad", "pm"]

/-- `preferenceBonus(label)`: +30 per release keyword, +20 per debrid
keyword, +10 once for hevc/x265.  The accumulator is a natural number
(the JS accumulator only ever adds the positive constants 30/20/10),
cast to `ℚ` at the end. -/
def preferenceBonus (label : String) : ℚ :=
  let b1 := releaseKeys.foldl (fun b t => if strHas label t then b + 30 else b) (0 : ℕ)
  let b2 := debridKeys.foldl (fun b t => if strHas label t then b + 20 else b) b1
  ((if strHas label "hevc" || strHas label "x265" then b2 + 10 else b2 : ℕ) : ℚ)

/-- `rankStream(st)`: quality magnitude plus `Math.log1p(seeds) * 200`
plus the preference bonus. -/
noncomputable def rankStream (st : Stream) : ℝ :=
  let label := combinedLabel st
  let qTag := qualityTag label
  let q := qualityScoreFromTag qTag
  let seeds := extractSeeders st
  let speed := Real.log (1 + (seeds : ℝ)) * 200
  (q : ℝ) + speed + (preferenceBonus label : ℝ)

/-! ## Magnet handling and normalization (source lines 107-144) -/

/-- The fixed tracker list `COMMON_TRACKERS`. -/
def COMMON_TRACKERS : List String :=
  ["udp://tracker.opentrackr.org:1337/announce",
   "udp://open.stealth.si:80/announce",
   "udp://tracker.torrent.eu.org:451/announce"]

/-- The characters `encodeURIComponent` leaves unescaped. -/
def uriUnreserved (c : Char) : Bool :=
  c.isAlphanum || c == '-' || c == '_' || c == '.' || c == '!' ||
    c == '~' || c == '*' || c == '\'' || c == '(' || c == ')'

/-- Upper-case hex digit of a value below 16. -/
def hexDigitChar (n : Nat) : Char :=
  if n < 10 then Char.ofNat ('0'.toNat + n) else Char.ofNat ('A'.toNat + (n - 10))

/-- UTF-8 bytes of a code point (as natural numbers below 256). -/
def utf8Bytes (c : Char) : List Nat :=
  let n := c.toNat
  if n < 0x80 then [n]
  else if n < 0x800 then [0xC0 + n / 0x40, 0x80 + n % 0x40]
  else if n < 0x10000 then
    [0xE0 + n / 0x1000, 0x80 + n / 0x40 % 0x40, 0x80 + n % 0x40]
  else
    [0xF0 + n / 0x40000, 0x80 + n / 0x1000 % 0x40, 0x80 + n / 0x40 % 0x40, 0x80 + n % 0x40]

/-- Percent-escape of one byte. -/
def percentEsc (b : Nat) : List Char := ['%', hexDigitChar (b / 16), hexDigitChar (b % 16)]

/-- JS `encodeURIComponent`: unreserved characters kept, everything else
percent-encoded as UTF-8 bytes. -/
def encodeURIComponent (s : String) : String :=
  String.mk (s.toList.foldr
    (fun c acc =>
      (if uriUnreserved c then [c] else (utf8Bytes c).foldr (fun b a => percentEsc b ++ a) []) ++ acc)
    [])

/-- `.replace(/\s+/g, " ")`: collapse whitespace runs to a single space
(the flag records whether the previous character was whitespace). -/
def collapseAux : Bool → List Char → List Char
  | _, [] => []
  | inSp, c :: cs =>
    if jsSpace c then
      if inSp then collapseAux true cs else ' ' :: collapseAux true cs
    else c :: collapseAux false cs

/-- `buildMagnet(st)`: an existing `magnet:` link is returned as is;
otherwise a magnet URI is synthesized from the first truthy of
`infoHash`/`infohash`/`hash`, with a display name and the common trackers. -/
def buildMagnet (st : Stream) : Option String :=
  if (match st.magnet with | some m => strStarts m "magnet:" | none => false) then st.magnet
  else
    match jsOrStr st.infoHash (jsOrStr st.infohash st.hash) with
    | none => none
    | some ih =>
      let dn := encodeURIComponent (String.mk (collapseAux false (jsOrStr3 st.title st.name "AutoStream").toList))
      let tr := String.join (COMMON_TRACKERS.map (fun t => "&tr=" ++ encodeURIComponent t))
      some ("magnet:?xt=urn:btih:" ++ ih ++ "&dn=" ++ dn ++ tr)

/-- The case-insensitive test `/^https?:\/\//i`. -/
def isHttpUrl (s : String) : Bool :=
  "http://".toList.isPrefixOf (lcStr s) || "https://".toList.isPrefixOf (lcStr s)

/-- Overwrite `behaviorHints.notWebReady`, keeping the other hints
(`{ ...(out.behaviorHints || {}), notWebReady: v }`). -/
def setNotWebReady (st : Stream) (v : Bool) : Stream :=
  { st with behaviorHints := some { st.behaviorHints.getD {} with notWebReady := some v } }

/-- `if (!out.url && out.externalUrl) out.url = out.externalUrl`: promote a
truthy `externalUrl` into a falsy `url`. -/
def promoteExternalUrl (st : Stream) : Stream :=
  match truthyStr st.url, truthyStr st.externalUrl with
  | none, some _ => { st with url := st.externalUrl }
  | _, _ => st

/-- `normalizeForResolver(st)` (v1.8.2 only): promote `externalUrl` into a
missing `url`; keep a web-ready http(s) URL; otherwise install a magnet
(the candidate's own, or one synthesized from its info hash); `none` when no
playable URL can be produced. -/
def normalizeForResolver (st : Stream) : Option Stream :=
  let out1 := promoteExternalUrl st
  if (match out1.url with | some u => isHttpUrl u | none => false) then
    some (setNotWebReady out1 false)
  else
    let m :=
      match truthyStr out1.url with
      | some u => if strStarts u "magnet:" then some u else buildMagnet out1
      | none => buildMagnet out1
    match truthyStr m with
    | some mm => some (setNotWebReady { out1 with magnet := some mm, url := some mm } true)
    | none => none

/-! ## Downgrade decision (source lines 17-27, 221-233) -/

/-- The `prefer_lower_quality` configuration (source field names
`prefer_rule`, `prefer1080_ratio`, `prefer1080_delta`, `prefer720_ratio`,
`prefer720_delta`; the threshold fields are shortened here). -/
structure Pref where
  prefer_rule : String := "ratio_and_delta"
  r1080 : ℚ := 2
  d1080 : ℚ := 500
  r720 : ℚ := 3
  d720 : ℚ := 1000
deriving DecidableEq, Repr

/-- The default `PREF` object. -/
def prefDefault : Pref := {}

/-- `isMuchFaster(lower, higher, ratioNeed, deltaNeed, rule)`: the ratio
test is passed outright when the higher candidate has zero measured seeders
(JS computes `Infinity` and `Infinity >= ratioNeed` holds); rule
`"ratio_or_delta"` takes the disjunction, every other rule string the
conjunction. -/
def isMuchFaster (lower higher : Stream) (ratioNeed deltaNeed : ℚ) (rule : String) : Bool :=
  let sLow := extractSeeders lower
  let sHigh := extractSeeders higher
  let ratioPass := if sHigh = 0 then true else decide (sLow / sHigh ≥ ratioNeed)
  let delta := sLow - sHigh
  if rule = "ratio_or_delta" then ratioPass || decide (delta ≥ deltaNeed)
  else ratioPass && decide (delta ≥ deltaNeed)

/-- Head of `list.sort((a, b) => rankStream(b) - rankStream(a))`: since the
sort is stable (ES2019), its head is the first element of maximal rank,
computed here by a fold that replaces the current best only on a strictly
larger rank. -/
noncomputable def pickTop : List Stream → Option Stream
  | [] => none
  | x :: xs => some (xs.foldl (fun best st => if rankStream st > rankStream best then st else best) x)

/-- `bestOfQuality(cands, wantedTag)`: top-ranked candidate among those
whose tag equals `wantedTag`, `none` when the bucket is empty. -/
noncomputable def bestOfQuality (cands : List Stream) (wantedTag : String) : Option Stream :=
  pickTop (cands.filter (fun st => qualityTag (combinedLabel st) == wantedTag))

/-- Downgrade step A (source lines 277-281): a 2160p/1440p pick falls to the
1080p bucket champion when that champion is much faster. -/
def stepDownA (pref : Pref) (best1080 : Option Stream) (curated : Stream) : Stream :=
  let curTagA := qualityTag (combinedLabel curated)
  match best1080 with
  | none => curated
  | some b =>
    if (curTagA == "2160p" || curTagA == "1440p") &&
        isMuchFaster b curated pref.r1080 pref.d1080 pref.prefer_rule then b
    else curated

/-- Downgrade step B (source lines 283-287): a 1080p pick falls to the 720p
bucket champion when that champion is much faster. -/
def stepDownB (pref : Pref) (best720 : Option Stream) (curated : Stream) : Stream :=
  let curTagB := qualityTag (combinedLabel curated)
  match best720 with
  | none => curated
  | some b =>
    if curTagB == "1080p" &&
        isMuchFaster b curated pref.r720 pref.d720 pref.prefer_rule then b
    else curated

/-- The two sequential downgrade checks in their fixed order. -/
def applyDowngrade (pref : Pref) (best1080 best720 : Option Stream) (curated : Stream) : Stream :=
  stepDownB pref best720 (stepDownA pref best1080 curated)

/-! ## Result assembly (source lines 289-323, and the v1.9.3 pass-through
variant at lines 743-756) -/

/-- One entry of the `out` array: the cleaned stream object together with
its quality score and rank, used by the final sort. -/
structure Packed where
  obj : Stream
  qScore : ℚ
  rank : ℝ

/-- `makeCleanWithQ` of v1.8.2: normalize the playable reference, then
replace title, provider name and binge group; `none` when the candidate has
no playable URL. -/
noncomputable def makeCleanWithQ (niceName id : String) (st : Stream) : Option Packed :=
  let qTag := qualityTag (combinedLabel st)
  let cleanTitle := niceName ++ " — " ++ displayTag qTag
  match normalizeForResolver st with
  | none => none
  | some normalized =>
    some
      { obj :=
          { normalized with
            title := some cleanTitle
            name := some "AutoStream"
            behaviorHints := some { normalized.behaviorHints.getD {} with bingeGroup := some id } }
        qScore := qualityScoreFromTag qTag
        rank := rankStream st }

/-- `makeCleanWithQ` of v1.9.3 (the pass-through variant): the stream object
is spread unchanged, only title, provider name and binge group are set. -/
noncomputable def makeCleanWithQPass (niceName id : String) (st : Stream) : Packed :=
  let qTag := qualityTag (combinedLabel st)
  let cleanTitle := niceName ++ " — " ++ displayTag qTag
  { obj :=
      { st with
        title := some cleanTitle
        name := some "AutoStream"
        behaviorHints := some { st.behaviorHints.getD {} with bingeGroup := some id } }
    qScore := qualityScoreFromTag qTag
    rank := rankStream st }

/-- The playable-reference identity
`st.url || st.externalUrl || st.magnet || st.infoHash` used for the
secondary-entry duplicate check (falsy values fall through to `none`). -/
def keyOf (st : Stream) : Option String :=
  jsOrStr st.url (jsOrStr st.externalUrl (jsOrStr st.magnet st.infoHash))

/-- JS `x || y` on comparator results (`0` is falsy). -/
noncomputable def jsOr (x y : ℝ) : ℝ := if x = 0 then y else x

/-- The final sort comparator `(a, b) => b.qScore - a.qScore || b.rank - a.rank`. -/
noncomputable def cmpOut (a b : Packed) : ℝ := jsOr ((b.qScore : ℝ) - (a.qScore : ℝ)) (b.rank - a.rank)

/-- `out.sort(cmpOut)` restricted to the lists of at most two entries the
handler builds: a stable sort swaps a two-element list exactly when the
comparator is positive on it. -/
noncomputable def finalSort : List Packed → List Packed
  | [a, b] => if cmpOut a b > 0 then [b, a] else [a, b]
  | l => l

/-- An optional packed entry as a list (`if (p) out.push(p)`). -/
def packOpt : Option Packed → List Packed
  | some p => [p]
  | none => []

/-- The optional secondary entry (source lines 313-320): when the final pick
is not 1080p-labelled, a 1080p bucket champion exists, and the
playable-reference identities do not coincide, the cleaned champion is
appended. -/
noncomputable def secondaryFor (niceName id : String) (curated : Stream) :
    Option Stream → List Packed
  | some b =>
    if !is1080pLabel (combinedLabel curated) &&
        ((keyOf curated).isNone || (keyOf b).isNone || keyOf curated != keyOf b) then
      packOpt (makeCleanWithQ niceName id b)
    else []
  | none => []

/-- The selection-and-assembly core of the stream handler (source lines
262-323) on an already-fetched candidate list: top pick, bucket champions,
the two downgrade steps, the optional secondary 1080p entry, final sort. -/
noncomputable def streamsFor (pref : Pref) (candidates : List Stream) (niceName id : String) :
    List Packed :=
  match pickTop candidates with
  | none => []
  | some curated0 =>
    let best1080 := bestOfQuality candidates "1080p"
    let best720 := bestOfQuality candidates "720p"
    let curated := applyDowngrade pref best1080 best720 curated0
    let out := packOpt (makeCleanWithQ niceName id curated) ++ secondaryFor niceName id curated best1080
    finalSort out

/-- `isDebridEndpoint(u)`:
`/(alldebrid|real-?debrid|premiumize)/i.test(u) && /(apikey=|apiKey=)/i.test(u)`. -/
def isDebridEndpoint (u : String) : Bool :=
  (strHas u "alldebrid" || strHas u "real-debrid" || strHas u "realdebrid" || strHas u "premiumize") &&
    strHas u "apikey="

/-- The http(s) test `/^https?:\/\//i.test(s.url || s.externalUrl || "")`
used to front-load web-ready candidates for debrid users. -/
def httpCandidate (s : Stream) : Bool := isHttpUrl (jsOrStr3 s.url s.externalUrl "")

/-- The full pure stream-handler pipeline (source lines 236-323) given the
fetched primary and fallback candidate lists and the resolved display name:
fallback on empty, empty result on still-empty, debrid threshold raise and
reorder, then `streamsFor`. -/
noncomputable def handlePacked (pref : Pref) (sources : List String)
    (primary fallback : List Stream) (niceName id : String) : List Packed :=
  let candidates := if primary.length = 0 then fallback else primary
  if candidates.length = 0 then []
  else
    let debridPreferred := sources.any isDebridEndpoint
    let localPref :=
      if debridPreferred then
        { pref with r1080 := max pref.r1080 (7 / 2), d1080 := max pref.d1080 1000 }
      else pref
    let candidates2 :=
      if debridPreferred then
        candidates.filter httpCandidate ++ candidates.filter (fun s => !httpCandidate s)
      else candidates
    streamsFor localPref candidates2 niceName id

/-- The stream objects the handler returns (`{ streams: sorted }`). -/
noncomputable def handleStreamRequest (pref : Pref) (sources : List String)
    (primary fallback : List Stream) (niceName id : String) : List Stream :=
  (handlePacked pref sources primary fallback niceName id).map Packed.obj

/-- The outermost `try/catch` of the handler (source lines 236-237 and
324-327): an exceptional outcome of the body is converted into an empty
stream list. -/
def guardedStreams (body : Except String (List Stream)) : List Stream :=
  match body with
  | Except.ok streams => streams
  | Except.error _ => []

/-! ## Helper lemmas -/

/-- Unfolding of `rankStream` into the spec formula. -/
theorem rankStream_def (st : Stream) :
    rankStream st =
      (qualityScoreFromTag (qualityTag (combinedLabel st)) : ℝ) +
        Real.log (1 + (extractSeeders st : ℝ)) * 200 +
        (preferenceBonus (combinedLabel st) : ℝ) := rfl

/-- The fold underlying `pickTop` only ever returns one of its inputs. -/
theorem foldl_best_mem (xs : List Stream) (x : Stream) :
    xs.foldl (fun best st => if rankStream st > rankStream best then st else best) x = x ∨
      xs.foldl (fun best st => if rankStream st > rankStream best then st else best) x ∈ xs := by
  induction xs generalizing x with
  | nil => exact Or.inl rfl
  | cons y ys ih =>
    simp only [List.foldl_cons]
    rcases ih (if rankStream y > rankStream x then y else x) with h | h
    · by_cases hy : rankStream y > rankStream x
      · right; rw [h, if_pos hy]; exact List.mem_cons_self _ _
      · left; rw [h, if_neg hy]
    · right; exact List.mem_cons_of_mem _ h

/-- `pickTop` returns an element of its input list. -/
theorem pickTop_mem {l : List Stream} {b : Stream} (h : pickTop l = some b) : b ∈ l := by
  cases l with
  | nil => simp [pickTop] at h
  | cons x xs =>
    simp only [pickTop, Option.some.injEq] at h
    rcases foldl_best_mem xs x with h' | h'
    · rw [h] at h'; rw [h']; exact List.mem_cons_self _ _
    · rw [h] at h'; exact List.mem_cons_of_mem _ h'

/-- A `bestOfQuality` champion carries exactly the wanted tag. -/
theorem bestOfQuality_tag {cands : List Stream} {t : String} {b : Stream}
    (h : bestOfQuality cands t = some b) : qualityTag (combinedLabel b) = t := by
  have hb := pickTop_mem h
  have := List.of_mem_filter hb
  simpa using this

/-- Case analysis for downgrade step A. -/
theorem stepDownA_cases (pref : Pref) (o : Option Stream) (curated : Stream) :
    stepDownA pref o curated = curated ∨
      (∃ b, o = some b ∧ stepDownA pref o curated = b ∧
        (qualityTag (combinedLabel curated) = "2160p" ∨
          qualityTag (combinedLabel curated) = "1440p") ∧
        isMuchFaster b curated pref.r1080 pref.d1080 pref.prefer_rule = true) := by
  cases o with
  | none => exact Or.inl rfl
  | some b =>
    simp only [stepDownA]
    by_cases hc :
        ((qualityTag (combinedLabel curated) == "2160p" ||
            qualityTag (combinedLabel curated) == "1440p") &&
          isMuchFaster b curated pref.r1080 pref.d1080 pref.prefer_rule) = true
    · right
      refine ⟨b, rfl, by rw [if_pos hc], ?_, ?_⟩
      · rw [Bool.and_eq_true, Bool.or_eq_true] at hc
        rcases hc.1 with h | h
        · exact Or.inl (by simpa using h)
        · exact Or.inr (by simpa using h)
      · rw [Bool.and_eq_true] at hc
        exact hc.2
    · left; rw [if_neg hc]

/-- Case analysis for downgrade step B. -/
theorem stepDownB_cases (pref : Pref) (o : Option Stream) (curated : Stream) :
    stepDownB pref o curated = curated ∨
      (∃ b, o = some b ∧ stepDownB pref o curated = b ∧
        qualityTag (combinedLabel curated) = "1080p" ∧
        isMuchFaster b curated pref.r720 pref.d720 pref.prefer_rule = true) := by
  cases o with
  | none => exact Or.inl rfl
  | some b =>
    simp only [stepDownB]
    by_cases hc :
        ((qualityTag (combinedLabel curated) == "1080p") &&
          isMuchFaster b curated pref.r720 pref.d720 pref.prefer_rule) = true
    · right
      rw [Bool.and_eq_true] at hc
      refine ⟨b, rfl, ?_, by simpa using hc.1, hc.2⟩
      rw [if_pos (by rw [Bool.and_eq_true]; exact hc)]
    · left; rw [if_neg hc]

/-- Step B is the identity on a pick that is not tagged 1080p. -/
theorem stepDownB_noop (pref : Pref) (o : Option Stream) (curated : Stream)
    (h : qualityTag (combinedLabel curated) ≠ "1080p") :
    stepDownB pref o curated = curated := by
  rcases stepDownB_cases pref o curated with h' | ⟨b, _, _, htag, _⟩
  · exact h'
  · exact absurd htag h

/-- The output order: quality score strictly descending, rank descending
inside a quality tie. -/
def pairOrdered (a b : Packed) : Prop :=
  b.qScore < a.qScore ∨ (a.qScore = b.qScore ∧ b.rank ≤ a.rank)

/-- `finalSort` keeps the length. -/
theorem finalSort_length (l : List Packed) : (finalSort l).length = l.length := by
  match l with
  | [] => rfl
  | [a] => rfl
  | [a, b] => simp only [finalSort]; split <;> rfl
  | a :: b :: c :: rest => rfl

/-- A two-element comparator sort leaves the list ordered. -/
theorem finalSort_sorted (l : List Packed) (h : l.length ≤ 2) :
    List.Chain' pairOrdered (finalSort l) := by
  match l with
  | [] => simp [finalSort]
  | [a] => simp [finalSort]
  | [a, b] =>
    simp only [finalSort]
    have hcast : ((b.qScore : ℝ) - (a.qScore : ℝ) = 0) ↔ b.qScore = a.qScore := by
      constructor
      · intro h0
        have : (b.qScore : ℝ) = (a.qScore : ℝ) := by linarith
        exact_mod_cast this
      · intro h0; rw [h0]; ring
    by_cases hq : (b.qScore : ℝ) - (a.qScore : ℝ) = 0
    · have hqq : b.qScore = a.qScore := hcast.1 hq
      by_cases hr : cmpOut a b > 0
      · rw [if_pos hr]
        have : b.rank - a.rank > 0 := by
          have : cmpOut a b = b.rank - a.rank := by rw [cmpOut, jsOr, if_pos hq]
          linarith [this ▸ hr]
        exact List.chain'_pair.2 (Or.inr ⟨hqq, by linarith⟩)
      · rw [if_neg hr]
        have hC : cmpOut a b = b.rank - a.rank := by rw [cmpOut, jsOr, if_pos hq]
        have : ¬(b.rank - a.rank > 0) := by rw [← hC]; exact hr
        exact List.chain'_pair.2 (Or.inr ⟨hqq.symm, by linarith⟩)
    · have hC : cmpOut a b = (b.qScore : ℝ) - (a.qScore : ℝ) := by rw [cmpOut, jsOr, if_neg hq]
      by_cases hr : cmpOut a b > 0
      · rw [if_pos hr]
        have : (a.qScore : ℝ) < (b.qScore : ℝ) := by linarith [hC ▸ hr]
        exact List.chain'_pair.2 (Or.inl (by exact_mod_cast this))
      · rw [if_neg hr]
        have h1 : ¬((b.qScore : ℝ) - (a.qScore : ℝ) > 0) := by rw [← hC]; exact hr
        have h2 : (b.qScore : ℝ) < (a.qScore : ℝ) := by
          rcases lt_or_eq_of_le (by linarith : (b.qScore : ℝ) ≤ (a.qScore : ℝ)) with h' | h'
          · exact h'
          · exact absurd (by linarith : (b.qScore : ℝ) - (a.qScore : ℝ) = 0) hq
        exact List.chain'_pair.2 (Or.inl (by exact_mod_cast h2))
  | a :: b :: c :: rest => simp at h

/-! ## Claims -/

/-- C1.  The downgrade policy is exactly the two sequential one-directional
checks in fixed order: the final pick's quality magnitude never exceeds the
initial pick's (no upgrade), and a 2160p initial pick either survives both
steps unchanged, or becomes the 1080p bucket champion in step A and then
either stays there or falls further to the 720p champion in step B — so a
720p outcome forces the intermediate 1080p downgrade, and no direct
4K-to-720p jump exists. -/
theorem C1_downgrade_two_steps (pref : Pref) (cands : List Stream) (curated : Stream) :
    qualityScoreFromTag (qualityTag (combinedLabel
        (applyDowngrade pref (bestOfQuality cands "1080p") (bestOfQuality cands "720p") curated))) ≤
      qualityScoreFromTag (qualityTag (combinedLabel curated)) ∧
    (qualityTag (combinedLabel curated) = "2160p" →
      (stepDownA pref (bestOfQuality cands "1080p") curated = curated ∧
        applyDowngrade pref (bestOfQuality cands "1080p") (bestOfQuality cands "720p") curated =
          curated) ∨
      ∃ b, bestOfQuality cands "1080p" = some b ∧ qualityTag (combinedLabel b) = "1080p" ∧
        stepDownA pref (bestOfQuality cands "1080p") curated = b ∧
        (applyDowngrade pref (bestOfQuality cands "1080p") (bestOfQuality cands "720p") curated =
            b ∨
          ∃ c, bestOfQuality cands "720p" = some c ∧ qualityTag (combinedLabel c) = "720p" ∧
            applyDowngrade pref (bestOfQuality cands "1080p") (bestOfQuality cands "720p")
              curated = c)) := by
  constructor
  · show qualityScoreFromTag (qualityTag (combinedLabel
        (stepDownB pref (bestOfQuality cands "720p")
          (stepDownA pref (bestOfQuality cands "1080p") curated)))) ≤ _
    rcases stepDownA_cases pref (bestOfQuality cands "1080p") curated with
      hA | ⟨b, hbsome, hAeq, htags, _⟩
    · rw [hA]
      rcases stepDownB_cases pref (bestOfQuality cands "720p") curated with
        hB | ⟨c, hcsome, hBeq, htag1080, _⟩
      · rw [hB]
      · rw [hBeq, bestOfQuality_tag hcsome, htag1080]
        show (720 : ℚ) ≤ 1080
        norm_num
    · rw [hAeq]
      have hbt := bestOfQuality_tag hbsome
      rcases stepDownB_cases pref (bestOfQuality cands "720p") b with
        hB | ⟨c, hcsome, hBeq, _, _⟩
      · rw [hB, hbt]
        rcases htags with h | h <;> rw [h]
        · show (1080 : ℚ) ≤ 4000; norm_num
        · show (1080 : ℚ) ≤ 1440; norm_num
      · rw [hBeq, bestOfQuality_tag hcsome]
        rcases htags with h | h <;> rw [h]
        · show (720 : ℚ) ≤ 4000; norm_num
        · show (720 : ℚ) ≤ 1440; norm_num
  · intro h2160
    rcases stepDownA_cases pref (bestOfQuality cands "1080p") curated with
      hA | ⟨b, hbsome, hAeq, _, _⟩
    · left
      refine ⟨hA, ?_⟩
      show stepDownB pref (bestOfQuality cands "720p")
        (stepDownA pref (bestOfQuality cands "1080p") curated) = curated
      rw [hA]
      exact stepDownB_noop _ _ _ (by rw [h2160]; intro hcon; exact absurd hcon (by decide))
    · right
      refine ⟨b, hbsome, bestOfQuality_tag hbsome, hAeq, ?_⟩
      have hAD : applyDowngrade pref (bestOfQuality cands "1080p") (bestOfQuality cands "720p")
          curated = stepDownB pref (bestOfQuality cands "720p") b := by
        show stepDownB pref (bestOfQuality cands "720p")
          (stepDownA pref (bestOfQuality cands "1080p") curated) = _
        rw [hAeq]
      rcases stepDownB_cases pref (bestOfQuality cands "720p") b with
        hB | ⟨c, hcsome, hBeq, _, _⟩
      · exact Or.inl (hAD.trans hB)
      · exact Or.inr ⟨c, hcsome, bestOfQuality_tag hcsome, hAD.trans hBeq⟩

/-- A concrete 2160p-labelled candidate for the C1 witness. -/
def curDemo2160 : Stream := { title := some "Demo 2160p film" }

/-- Witness for C1 at a concrete input (empty candidate list, 2160p pick):
the tag hypothesis is discharged by computation and the policy leaves the
pick unchanged. -/
theorem C1_witness :
    qualityTag (combinedLabel curDemo2160) = "2160p" ∧
    ((stepDownA prefDefault (bestOfQuality ([] : List Stream) "1080p") curDemo2160 =
          curDemo2160 ∧
        applyDowngrade prefDefault (bestOfQuality ([] : List Stream) "1080p")
          (bestOfQuality ([] : List Stream) "720p") curDemo2160 = curDemo2160) ∨
      ∃ b, bestOfQuality ([] : List Stream) "1080p" = some b ∧
        qualityTag (combinedLabel b) = "1080p" ∧
        stepDownA prefDefault (bestOfQuality ([] : List Stream) "1080p") curDemo2160 = b ∧
        (applyDowngrade prefDefault (bestOfQuality ([] : List Stream) "1080p")
            (bestOfQuality ([] : List Stream) "720p") curDemo2160 = b ∨
          ∃ c, bestOfQuality ([] : List Stream) "720p" = some c ∧
            qualityTag (combinedLabel c) = "720p" ∧
            applyDowngrade prefDefault (bestOfQuality ([] : List Stream) "1080p")
              (bestOfQuality ([] : List Stream) "720p") curDemo2160 = c)) :=
  ⟨rfl, (C1_downgrade_two_steps prefDefault [] curDemo2160).2 rfl⟩

/-- A candidate with 50 measured seeders. -/
def st50 : Stream := { seeders := some 50 }

/-- A candidate with 20 measured seeders. -/
def st20 : Stream := { seeders := some 20 }

/-- C2.  `isMuchFaster` under rule "ratio_and_delta" is the conjunction and
under "ratio_or_delta" the disjunction of the ratio test (passed outright
when the higher candidate has zero measured seeders) and the delta test;
at lower = 50 seeds, higher = 20 seeds, ratioNeed = 2.0, deltaNeed = 500 the
and-rule yields false and the or-rule yields true. -/
theorem C2_isMuchFaster :
    (∀ (lower higher : Stream) (ratioNeed deltaNeed : ℚ),
      (isMuchFaster lower higher ratioNeed deltaNeed "ratio_and_delta" = true ↔
        ((extractSeeders higher = 0 ∨
            extractSeeders lower / extractSeeders higher ≥ ratioNeed) ∧
          extractSeeders lower - extractSeeders higher ≥ deltaNeed)) ∧
      (isMuchFaster lower higher ratioNeed deltaNeed "ratio_or_delta" = true ↔
        ((extractSeeders higher = 0 ∨
            extractSeeders lower / extractSeeders higher ≥ ratioNeed) ∨
          extractSeeders lower - extractSeeders higher ≥ deltaNeed))) ∧
    isMuchFaster st50 st20 2 500 "ratio_and_delta" = false ∧
    isMuchFaster st50 st20 2 500 "ratio_or_delta" = true := by
  refine ⟨fun lower higher ratioNeed deltaNeed => ⟨?_, ?_⟩, ?_, ?_⟩
  · simp only [isMuchFaster]
    rw [if_neg (by decide : ¬("ratio_and_delta" = "ratio_or_delta"))]
    by_cases h0 : extractSeeders higher = 0
    · rw [if_pos h0]; simp [h0]
    · rw [if_neg h0]; simp [h0]
  · simp only [isMuchFaster]
    rw [if_pos trivial]
    by_cases h0 : extractSeeders higher = 0
    · rw [if_pos h0]; simp [h0]
    · rw [if_neg h0]; simp [h0]
  · have e50 : extractSeeders st50 = 50 := rfl
    have e20 : extractSeeders st20 = 20 := rfl
    simp only [isMuchFaster, e50, e20]
    rw [if_neg (by decide : ¬("ratio_and_delta" = "ratio_or_delta")),
      if_neg (by norm_num : ¬(20 : ℚ) = 0)]
    have hd : ¬((50 : ℚ) - 20 ≥ 500) := by norm_num
    simp [hd]
  · have e50 : extractSeeders st50 = 50 := rfl
    have e20 : extractSeeders st20 = 20 := rfl
    simp only [isMuchFaster, e50, e20]
    rw [if_pos trivial, if_neg (by norm_num : ¬(20 : ℚ) = 0)]
    have hr : (50 : ℚ) / 20 ≥ 2 := by norm_num
    simp [hr]

/-- C3.  `rankStream` is exactly the spec formula
quality + log(1 + seeders) * 200 + bonus; the tier magnitudes are the fixed
table (unknown/SD included); and on a candidate with every field missing the
function still evaluates (to the SD magnitude 360). -/
theorem C3_rank_formula :
    (∀ st : Stream,
      rankStream st =
        (qualityScoreFromTag (qualityTag (combinedLabel st)) : ℝ) +
          Real.log (1 + (extractSeeders st : ℝ)) * 200 +
          (preferenceBonus (combinedLabel st) : ℝ)) ∧
    qualityScoreFromTag "2160p" = 4000 ∧ qualityScoreFromTag "1440p" = 1440 ∧
    qualityScoreFromTag "1080p" = 1080 ∧ qualityScoreFromTag "720p" = 720 ∧
    qualityScoreFromTag "480p" = 480 ∧ qualityScoreFromTag "CAM" = 10 ∧
    qualityScoreFromTag "SD" = 360 ∧
    rankStream {} = 360 := by
  refine ⟨rankStream_def, by decide, by decide, by decide, by decide, by decide, by decide,
    by decide, ?_⟩
  rw [rankStream_def]
  have h1 : qualityScoreFromTag (qualityTag (combinedLabel ({} : Stream))) = 360 := by decide
  have h2 : extractSeeders ({} : Stream) = 0 := rfl
  have h3 : preferenceBonus (combinedLabel ({} : Stream)) = 0 := by decide
  rw [h1, h2, h3]
  norm_num [Real.log_one]

/-- C6.  `qualityTag` is the case-insensitive first-match-wins substring
search in the fixed priority order 2160/4k/uhd, 1440/2k, 1080, 720, 480,
cam, default SD: each tier is reached exactly when its keyword set matches
and no higher-priority set does; the multi-keyword label
"2160p proper 1080p repack" yields "2160p". -/
theorem C6_qualityTag :
    (∀ label : String,
      (qualityTag label = "2160p" ↔
        (strHas label "2160" || strHas label "4k" || strHas label "uhd") = true) ∧
      (qualityTag label = "1440p" ↔
        ((strHas label "2160" || strHas label "4k" || strHas label "uhd") = false ∧
          (strHas label "1440" || strHas label "2k") = true)) ∧
      (qualityTag label = "1080p" ↔
        ((strHas label "2160" || strHas label "4k" || strHas label "uhd") = false ∧
          (strHas label "1440" || strHas label "2k") = false ∧
          strHas label "1080" = true)) ∧
      (qualityTag label = "720p" ↔
        ((strHas label "2160" || strHas label "4k" || strHas label "uhd") = false ∧
          (strHas label "1440" || strHas label "2k") = false ∧
          strHas label "1080" = false ∧ strHas label "720" = true)) ∧
      (qualityTag label = "480p" ↔
        ((strHas label "2160" || strHas label "4k" || strHas label "uhd") = false ∧
          (strHas label "1440" || strHas label "2k") = false ∧
          strHas label "1080" = false ∧ strHas label "720" = false ∧
          strHas label "480" = true)) ∧
      (qualityTag label = "CAM" ↔
        ((strHas label "2160" || strHas label "4k" || strHas label "uhd") = false ∧
          (strHas label "1440" || strHas label "2k") = false ∧
          strHas label "1080" = false ∧ strHas label "720" = false ∧
          strHas label "480" = false ∧ strHas label "cam" = true)) ∧
      (qualityTag label = "SD" ↔
        ((strHas label "2160" || strHas label "4k" || strHas label "uhd") = false ∧
          (strHas label "1440" || strHas label "2k") = false ∧
          strHas label "1080" = false ∧ strHas label "720" = false ∧
          strHas label "480" = false ∧ strHas label "cam" = false))) ∧
    qualityTag "2160p proper 1080p repack" = "2160p" := by
  refine ⟨fun label => ?_, by decide⟩
  by_cases h1 : (strHas label "2160" || strHas label "4k" || strHas label "uhd") = true
  · refine ⟨?_, ?_, ?_, ?_, ?_, ?_, ?_⟩ <;> simp [qualityTag, h1]
  · rw [Bool.not_eq_true] at h1
    by_cases h2 : (strHas label "1440" || strHas label "2k") = true
    · refine ⟨?_, ?_, ?_, ?_, ?_, ?_, ?_⟩ <;> simp [qualityTag, h1, h2]
    · rw [Bool.not_eq_true] at h2
      by_cases h3 : strHas label "1080" = true
      · refine ⟨?_, ?_, ?_, ?_, ?_, ?_, ?_⟩ <;> simp [qualityTag, h1, h2, h3]
      · rw [Bool.not_eq_true] at h3
        by_cases h4 : strHas label "720" = true
        · refine ⟨?_, ?_, ?_, ?_, ?_, ?_, ?_⟩ <;> simp [qualityTag, h1, h2, h3, h4]
        · rw [Bool.not_eq_true] at h4
          by_cases h5 : strHas label "480" = true
          · refine ⟨?_, ?_, ?_, ?_, ?_, ?_, ?_⟩ <;> simp [qualityTag, h1, h2, h3, h4, h5]
          · rw [Bool.not_eq_true] at h5
            by_cases h6 : strHas label "cam" = true
            · refine ⟨?_, ?_, ?_, ?_, ?_, ?_, ?_⟩ <;> simp [qualityTag, h1, h2, h3, h4, h5, h6]
            · rw [Bool.not_eq_true] at h6
              refine ⟨?_, ?_, ?_, ?_, ?_, ?_, ?_⟩ <;>
                simp [qualityTag, h1, h2, h3, h4, h5, h6]

/-- C7.  `extractSeeders` prefers the explicit numeric `seeders` field, then
the numeric `seeds` field, then the ordered regex cascade over the combined
label (returning the captured count), and yields 0 when no field is present
and no pattern matches; the three patterns recover "50 seeders",
"[123 seeds]" and "seeds: 77", while "Movie 2023" yields 0. -/
theorem C7_extractSeeders :
    (∀ (st : Stream) (n : ℚ), st.seeders = some n → extractSeeders st = n) ∧
    (∀ (st : Stream) (n : ℚ), st.seeders = none → st.seeds = some n → extractSeeders st = n) ∧
    (∀ (st : Stream) (n : ℕ), st.seeders = none → st.seeds = none →
      seedScan (lcStr (combinedLabel st)) = some n → extractSeeders st = (n : ℚ)) ∧
    (∀ st : Stream, st.seeders = none → st.seeds = none →
      seedScan (lcStr (combinedLabel st)) = none → extractSeeders st = 0) ∧
    extractSeeders { title := some "Great Movie 50 seeders" } = 50 ∧
    extractSeeders { title := some "Movie [123 seeds] x" } = 123 ∧
    extractSeeders { title := some "Torrent seeds: 77" } = 77 ∧
    extractSeeders { title := some "Movie 2023" } = 0 := by
  refine ⟨?_, ?_, ?_, ?_, by decide, by decide, by decide, by decide⟩
  · intro st n h; simp [extractSeeders, h]
  · intro st n h1 h2; simp [extractSeeders, h1, h2]
  · intro st n h1 h2 h3; simp [extractSeeders, h1, h2, h3]
  · intro st h1 h2 h3; simp [extractSeeders, h1, h2, h3]

/-- Witness for C7 at concrete inputs: each branch of the theorem applied
with its hypotheses discharged by computation. -/
theorem C7_witness :
    extractSeeders { seeders := some 42 } = 42 ∧
    extractSeeders { seeds := some 7 } = 7 ∧
    extractSeeders { title := some "99 seeds torrent" } = 99 ∧
    extractSeeders { title := some "no count here" } = 0 :=
  ⟨C7_extractSeeders.1 _ 42 rfl,
    C7_extractSeeders.2.1 _ 7 rfl rfl,
    C7_extractSeeders.2.2.1 _ 99 rfl rfl rfl,
    C7_extractSeeders.2.2.2.1 _ rfl rfl rfl⟩

/-- The fold of a keyword scan adds its constant once per matching keyword. -/
theorem foldl_bonus (k : ℕ) (p : String → Bool) (l : List String) (b : ℕ) :
    l.foldl (fun acc t => if p t then acc + k else acc) b = b + k * l.countP p := by
  induction l generalizing b with
  | nil => simp
  | cons x xs ih =>
    simp only [List.foldl_cons, List.countP_cons]
    by_cases h : p x = true
    · rw [if_pos h, ih]; simp [h]; ring
    · rw [if_neg h, ih]; simp [h]

/-- C8 counterexample.  The claim's example label "web-dl" matches none of
the code's release keywords (they are the unhyphenated forms), so its bonus
is 0, not the claimed +30. -/
theorem C8_counterexample :
    preferenceBonus "web-dl" = 0 ∧ preferenceBonus "web-dl" ≠ 30 := by
  exact ⟨by decide, by decide⟩

/-- C8 (amended).  `preferenceBonus` is additive and cumulative: +30 per
matched release keyword from the code's list webdl/webrip/blu/bluray/remux
(so the hyphenated "web-dl" matches none, and "bluray" matches two), +20 per
matched debrid keyword, +10 once for hevc/x265; a label matching exactly one
release keyword, such as "remux", receives exactly +30 from that group. -/
theorem C8_preferenceBonus :
    (∀ label : String,
      preferenceBonus label =
        30 * (releaseKeys.countP (fun t => strHas label t) : ℚ) +
          20 * (debridKeys.countP (fun t => strHas label t) : ℚ) +
          (if (strHas label "hevc" || strHas label "x265") = true then 10 else 0)) ∧
    preferenceBonus "remux" = 30 ∧
    preferenceBonus "Movie bluray x265" = 70 := by
  refine ⟨fun label => ?_, by decide, by decide⟩
  simp only [preferenceBonus]
  rw [foldl_bonus, foldl_bonus]
  by_cases h : (strHas label "hevc" || strHas label "x265") = true
  · rw [if_pos h, if_pos h]; push_cast; ring
  · rw [if_neg h, if_neg h]; push_cast; ring

/-- C9.  The pipeline never surfaces an error: with zero candidates from
both the primary and the fallback fetch the handler returns the empty
stream list, and the outermost catch converts any exceptional outcome of
the handler body into the empty stream list (while a normal outcome passes
through). -/
theorem C9_error_handling :
    (∀ (pref : Pref) (sources : List String) (niceName id : String),
      handleStreamRequest pref sources [] [] niceName id = []) ∧
    (∀ e : String, guardedStreams (Except.error e) = []) ∧
    (∀ streams : List Stream, guardedStreams (Except.ok streams) = streams) :=
  ⟨fun _ _ _ _ => rfl, fun _ => rfl, fun _ => rfl⟩

/-- `packOpt` yields at most one entry. -/
theorem packOpt_length (o : Option Packed) : (packOpt o).length ≤ 1 := by
  cases o <;> simp [packOpt]

/-- The secondary entry contributes at most one entry. -/
theorem secondaryFor_length (n i : String) (curated : Stream) (o : Option Stream) :
    (secondaryFor n i curated o).length ≤ 1 := by
  cases o with
  | none => simp [secondaryFor]
  | some b =>
    simp only [secondaryFor]
    split
    · exact packOpt_length _
    · simp

/-- The assembly core always returns a sorted list of at most two entries. -/
theorem streamsFor_spec (pref : Pref) (cands : List Stream) (n i : String) :
    (streamsFor pref cands n i).length ≤ 2 ∧
      List.Chain' pairOrdered (streamsFor pref cands n i) := by
  have hout : ∃ out : List Packed,
      streamsFor pref cands n i = finalSort out ∧ out.length ≤ 2 := by
    simp only [streamsFor]
    cases hp : pickTop cands with
    | none => exact ⟨[], rfl, by norm_num⟩
    | some cur0 =>
      refine ⟨_, rfl, ?_⟩
      rw [List.length_append]
      exact Nat.add_le_add (packOpt_length _) (secondaryFor_length _ _ _ _)
  obtain ⟨out, heq, hlen⟩ := hout
  rw [heq, finalSort_length]
  exact ⟨hlen, finalSort_sorted out hlen⟩

/-- C5.  For every request the handler emits an ordered list of at most two
entries (0, 1 or 2), sorted by quality score descending and, at equal
quality score, by rank descending; the returned stream objects are exactly
those entries' objects. -/
theorem C5_output_contract (pref : Pref) (sources : List String)
    (primary fallback : List Stream) (niceName id : String) :
    (handlePacked pref sources primary fallback niceName id).length ≤ 2 ∧
      List.Chain' pairOrdered (handlePacked pref sources primary fallback niceName id) ∧
      handleStreamRequest pref sources primary fallback niceName id =
        (handlePacked pref sources primary fallback niceName id).map Packed.obj := by
  have hmain : handlePacked pref sources primary fallback niceName id = [] ∨
      ∃ p c, handlePacked pref sources primary fallback niceName id =
        streamsFor p c niceName id := by
    simp only [handlePacked]
    split <;> split <;> first
      | exact Or.inl rfl
      | exact Or.inr ⟨_, _, rfl⟩
  refine ⟨?_, ?_, rfl⟩
  · rcases hmain with h | ⟨p, c, h⟩ <;> rw [h]
    · norm_num
    · exact (streamsFor_spec p c _ _).1
  · rcases hmain with h | ⟨p, c, h⟩ <;> rw [h]
    · simp
    · exact (streamsFor_spec p c _ _).2

/-- The quality score attached by the assembler is the cleaned candidate's
own tier magnitude. -/
theorem makeCleanWithQ_qScore {n i : String} {st : Stream} {q : Packed}
    (h : makeCleanWithQ n i st = some q) :
    q.qScore = qualityScoreFromTag (qualityTag (combinedLabel st)) := by
  cases hn : normalizeForResolver st with
  | none => simp [makeCleanWithQ, hn] at h
  | some nz =>
    simp only [makeCleanWithQ, hn, Option.some.injEq] at h
    rw [← h]

/-- C4 (amended).  When the final (possibly downgraded) pick's tier is 2160p
or 1440p, the primary entry is the first element of the emitted, sorted
output: the optional secondary 1080p entry has the strictly smaller quality
score 1080 and cannot be sorted above it.  (The unamended claim — that the
secondary can never be strictly higher quality than the primary — fails
when the final pick's tier is below 1080p; see the counterexample.) -/
theorem C4_amended (pref : Pref) (cands : List Stream) (niceName id : String)
    (cur0 : Stream) (p : Packed)
    (h0 : pickTop cands = some cur0)
    (htag : qualityTag (combinedLabel (applyDowngrade pref (bestOfQuality cands "1080p")
        (bestOfQuality cands "720p") cur0)) = "2160p" ∨
      qualityTag (combinedLabel (applyDowngrade pref (bestOfQuality cands "1080p")
        (bestOfQuality cands "720p") cur0)) = "1440p")
    (hp : makeCleanWithQ niceName id (applyDowngrade pref (bestOfQuality cands "1080p")
        (bestOfQuality cands "720p") cur0) = some p) :
    (streamsFor pref cands niceName id).head? = some p := by
  have hpq : p.qScore = 4000 ∨ p.qScore = 1440 := by
    rcases htag with h | h
    · left; rw [makeCleanWithQ_qScore hp, h]; rfl
    · right; rw [makeCleanWithQ_qScore hp, h]; rfl
  simp only [streamsFor, h0]
  rw [hp]
  cases hb : bestOfQuality cands "1080p" with
  | none =>
    simp [secondaryFor, packOpt, finalSort]
  | some b =>
    simp only [secondaryFor]
    split
    · cases hq : makeCleanWithQ niceName id b with
      | none => simp [packOpt, finalSort]
      | some q =>
        have hqq : q.qScore = 1080 := by
          rw [makeCleanWithQ_qScore hq, bestOfQuality_tag hb]; rfl
        have hneg : ¬cmpOut p q > 0 := by
          rw [cmpOut, jsOr, hqq]
          rcases hpq with h | h <;> rw [h] <;>
            rw [if_neg (by push_cast; norm_num)] <;> push_cast <;> norm_num
        simp only [packOpt, List.singleton_append, finalSort]
        rw [if_neg hneg]
        rfl
    · simp [packOpt, finalSort]

/-- A concrete single 2160p candidate for the C4 witness. -/
def c2160demo : Stream := { title := some "Great 2160p", seeders := some 5, url := some "http://u" }

/-- The packed entry the assembler produces for `c2160demo`. -/
noncomputable def p4demo : Packed :=
  { obj :=
      { title := some "M — 4K"
        name := some "AutoStream"
        seeders := some 5
        url := some "http://u"
        behaviorHints := some { notWebReady := some false, bingeGroup := some "tt0" } }
    qScore := 4000
    rank := rankStream c2160demo }

/-- Witness for C4 at a concrete input: a lone 2160p candidate is the top
pick, survives the downgrade steps, and heads the output. -/
theorem C4_witness :
    pickTop [c2160demo] = some c2160demo ∧
    (streamsFor prefDefault [c2160demo] "M" "tt0").head? = some p4demo :=
  ⟨rfl, C4_amended prefDefault [c2160demo] "M" "tt0" c2160demo p4demo rfl (Or.inl rfl) rfl⟩

/-- A 1080p candidate with no measured seeders for the C4 counterexample. -/
def c1080demo : Stream := { title := some "Movie 1080p", seeders := some 0, url := some "http://a" }

/-- A 720p candidate with 5000 measured seeders. -/
def c720demo : Stream := { title := some "Movie 720p", seeders := some 5000, url := some "http://b" }

/-- The counterexample candidate list. -/
def demoCands : List Stream := [c1080demo, c720demo]

/-- The heavily-seeded 720p candidate outranks the seedless 1080p one:
1080 + 200 log 1 < 720 + 200 log 5001. -/
theorem demo_rank_lt : rankStream c1080demo < rankStream c720demo := by
  rw [rankStream_def, rankStream_def]
  have h1 : qualityScoreFromTag (qualityTag (combinedLabel c1080demo)) = 1080 := by decide
  have h2 : qualityScoreFromTag (qualityTag (combinedLabel c720demo)) = 720 := by decide
  have h3 : extractSeeders c1080demo = 0 := rfl
  have h4 : extractSeeders c720demo = 5000 := rfl
  have h5 : preferenceBonus (combinedLabel c1080demo) = 0 := by decide
  have h6 : preferenceBonus (combinedLabel c720demo) = 0 := by decide
  rw [h1, h2, h3, h4, h5, h6]
  push_cast
  have hone : (1 : ℝ) + 0 = 1 := by norm_num
  have hbig : (1 : ℝ) + 5000 = 5001 := by norm_num
  rw [hone, hbig, Real.log_one]
  have hexp : Real.exp (9 / 5 : ℝ) < 5001 := by
    have hle : Real.exp (9 / 5 : ℝ) ≤ Real.exp 2 := Real.exp_le_exp.mpr (by norm_num)
    have h2e : Real.exp (2 : ℝ) = Real.exp 1 * Real.exp 1 := by
      rw [← Real.exp_add]; norm_num
    have he : Real.exp 1 < 2.7182818286 := Real.exp_one_lt_d9
    nlinarith [Real.exp_pos 1]
  have hlog : (9 / 5 : ℝ) < Real.log 5001 := (Real.lt_log_iff_exp_lt (by norm_num)).mpr hexp
  nlinarith

/-- C4 counterexample.  On `demoCands` the top-ranked (primary) pick is the
720p candidate, no downgrade step applies, and the emitted output carries
the secondary 1080p entry first with the strictly higher quality score:
the output quality scores are [1080, 720], so the primary is not the first
entry and the secondary is strictly higher quality. -/
theorem C4_counterexample :
    pickTop demoCands = some c720demo ∧
    qualityTag (combinedLabel c720demo) = "720p" ∧
    (streamsFor prefDefault demoCands "Movie" "tt0").map Packed.qScore = [1080, 720] := by
  have hpk : pickTop demoCands = some c720demo := by
    show some (if rankStream c720demo > rankStream c1080demo then c720demo else c1080demo) =
      some c720demo
    rw [if_pos demo_rank_lt]
  refine ⟨hpk, by decide, ?_⟩
  have hb1080 : bestOfQuality demoCands "1080p" = some c1080demo := rfl
  have hb720 : bestOfQuality demoCands "720p" = some c720demo := rfl
  have hfin : applyDowngrade prefDefault (some c1080demo) (some c720demo) c720demo =
      c720demo := rfl
  simp only [streamsFor, hpk, hb1080, hb720, hfin]
  obtain ⟨P, hP⟩ : ∃ P, makeCleanWithQ "Movie" "tt0" c720demo = some P := ⟨_, rfl⟩
  obtain ⟨Q, hQ⟩ : ∃ Q, makeCleanWithQ "Movie" "tt0" c1080demo = some Q := ⟨_, rfl⟩
  have hPq : P.qScore = 720 := by rw [makeCleanWithQ_qScore hP]; decide
  have hQq : Q.qScore = 1080 := by rw [makeCleanWithQ_qScore hQ]; decide
  have hsec : secondaryFor "Movie" "tt0" c720demo (some c1080demo) =
      packOpt (makeCleanWithQ "Movie" "tt0" c1080demo) := by
    simp only [secondaryFor]
    rw [if_pos (by decide)]
  rw [hsec, hP, hQ]
  have hcmp : cmpOut P Q > 0 := by
    rw [cmpOut, jsOr, hPq, hQq]
    rw [if_neg (by push_cast; norm_num)]
    push_cast
    norm_num
  simp only [packOpt, List.singleton_append, finalSort]
  rw [if_pos hcmp]
  simp [hPq, hQq]

/-- URL promotion never touches `externalUrl`. -/
theorem promoteExternalUrl_externalUrl (st : Stream) :
    (promoteExternalUrl st).externalUrl = st.externalUrl := by
  unfold promoteExternalUrl
  split <;> rfl

/-- URL promotion never touches `infoHash`. -/
theorem promoteExternalUrl_infoHash (st : Stream) :
    (promoteExternalUrl st).infoHash = st.infoHash := by
  unfold promoteExternalUrl
  split <;> rfl

/-- With a truthy `url`, promotion is the identity. -/
theorem promoteExternalUrl_of_truthy {st : Stream} (h : (truthyStr st.url).isSome) :
    promoteExternalUrl st = st := by
  unfold promoteExternalUrl
  split
  · rename_i heq _
    rw [heq] at h
    simp at h
  · rfl

/-- A candidate holding only an info hash: the raw record has no `url` at
all, yet the assembler emits one (a synthesized magnet URI). -/
def stIHdemo : Stream := { infoHash := some "0123456789abcdef0123456789abcdef01234567" }

/-- C10 counterexample.  On an info-hash-only candidate the v1.8.2
normalization inside the Result Assembler produces an entry whose `url` is
not the candidate's raw `url` field: a magnet reference is synthesized
rather than reused unmodified, and the assembler's emitted object carries
exactly that rewritten `url`. -/
theorem C10_counterexample :
    (normalizeForResolver stIHdemo).isSome = true ∧
    Option.map Stream.url (normalizeForResolver stIHdemo) ≠ some stIHdemo.url ∧
    Option.map (fun p => p.obj.url) (makeCleanWithQ "Movie" "tt1" stIHdemo) =
      Option.map Stream.url (normalizeForResolver stIHdemo) := by
  refine ⟨by decide, by decide, ?_⟩
  rfl

/-- C10 (amended).  The pass-through assembler (v1.9.3 `makeCleanWithQ`)
changes only the display title, the provider name and the binge-group hint,
reusing every other field — in particular the playable-reference fields
url / externalUrl / magnet / infoHash — unmodified.  The normalizing
assembler (v1.8.2) reuses `url`, `magnet`, `infoHash` and `externalUrl`
unmodified whenever the candidate already has an http(s) `url`, and its
normalization never modifies `externalUrl` or `infoHash`; but on a candidate
without a truthy http(s) or magnet `url` it rewrites `url` (and `magnet`) to
a magnet reference (see the counterexample). -/
theorem C10_amended :
    (∀ (niceName id : String) (st : Stream),
      (makeCleanWithQPass niceName id st).obj.url = st.url ∧
      (makeCleanWithQPass niceName id st).obj.externalUrl = st.externalUrl ∧
      (makeCleanWithQPass niceName id st).obj.magnet = st.magnet ∧
      (makeCleanWithQPass niceName id st).obj.infoHash = st.infoHash ∧
      (makeCleanWithQPass niceName id st).obj.infohash = st.infohash ∧
      (makeCleanWithQPass niceName id st).obj.hash = st.hash ∧
      (makeCleanWithQPass niceName id st).obj.description = st.description ∧
      (makeCleanWithQPass niceName id st).obj.seeders = st.seeders ∧
      (makeCleanWithQPass niceName id st).obj.seeds = st.seeds ∧
      (makeCleanWithQPass niceName id st).obj.title =
        some (niceName ++ " — " ++ displayTag (qualityTag (combinedLabel st))) ∧
      (makeCleanWithQPass niceName id st).obj.name = some "AutoStream" ∧
      (makeCleanWithQPass niceName id st).obj.behaviorHints =
        some { st.behaviorHints.getD {} with bingeGroup := some id }) ∧
    (∀ (niceName id : String) (st : Stream) (u : String),
      st.url = some u → isHttpUrl u = true →
      Option.map (fun p => p.obj.url) (makeCleanWithQ niceName id st) = some st.url ∧
      Option.map (fun p => p.obj.magnet) (makeCleanWithQ niceName id st) = some st.magnet ∧
      Option.map (fun p => p.obj.infoHash) (makeCleanWithQ niceName id st) = some st.infoHash ∧
      Option.map (fun p => p.obj.externalUrl) (makeCleanWithQ niceName id st) =
        some st.externalUrl) ∧
    (∀ st out : Stream, normalizeForResolver st = some out →
      out.externalUrl = st.externalUrl ∧ out.infoHash = st.infoHash) := by
  refine ⟨?_, ?_, ?_⟩
  · intro niceName id st
    exact ⟨rfl, rfl, rfl, rfl, rfl, rfl, rfl, rfl, rfl, rfl, rfl, rfl⟩
  · intro niceName id st u hu hhttp
    have hne : u ≠ "" := by
      intro h
      rw [h] at hhttp
      exact absurd hhttp (by decide)
    have htr : truthyStr st.url = some u := by simp [truthyStr, hu, hne]
    have hpro : promoteExternalUrl st = st :=
      promoteExternalUrl_of_truthy (by rw [htr]; rfl)
    have hnorm : normalizeForResolver st = some (setNotWebReady st false) := by
      simp [normalizeForResolver, hpro, hu, hhttp]
    refine ⟨?_, ?_, ?_, ?_⟩ <;> simp [makeCleanWithQ, hnorm, setNotWebReady]
  · intro st out h
    simp only [normalizeForResolver] at h
    split at h
    · injection h with h'
      rw [← h']
      exact ⟨promoteExternalUrl_externalUrl st, promoteExternalUrl_infoHash st⟩
    · split at h
      · injection h with h'
        rw [← h']
        exact ⟨promoteExternalUrl_externalUrl st, promoteExternalUrl_infoHash st⟩
      · cases h

/-- A concrete candidate with an http url and every reference field, for
the C10 witness. -/
def stHttpDemo : Stream :=
  { title := some "T", url := some "http://x", externalUrl := some "http://y",
    magnet := some "magnet:?xt=urn:btih:abc", infoHash := some "abc" }

/-- Witness for C10 at a concrete input: both assembler variants leave the
reference fields of an http candidate unmodified. -/
theorem C10_witness :
    (makeCleanWithQPass "N" "g1" stHttpDemo).obj.url = stHttpDemo.url ∧
    (makeCleanWithQPass "N" "g1" stHttpDemo).obj.magnet = stHttpDemo.magnet ∧
    Option.map (fun p => p.obj.url) (makeCleanWithQ "N" "g1" stHttpDemo) =
      some stHttpDemo.url ∧
    Option.map (fun p => p.obj.magnet) (makeCleanWithQ "N" "g1" stHttpDemo) =
      some stHttpDemo.magnet ∧
    Option.map (fun p => p.obj.infoHash) (makeCleanWithQ "N" "g1" stHttpDemo) =
      some stHttpDemo.infoHash ∧
    (setNotWebReady stHttpDemo false).externalUrl = stHttpDemo.externalUrl :=
  ⟨(C10_amended.1 "N" "g1" stHttpDemo).1,
    (C10_amended.1 "N" "g1" stHttpDemo).2.2.1,
    (C10_amended.2.1 "N" "g1" stHttpDemo "http://x" rfl (by decide)).1,
    (C10_amended.2.1 "N" "g1" stHttpDemo "http://x" rfl (by decide)).2.1,
    (C10_amended.2.1 "N" "g1" stHttpDemo "http://x" rfl (by decide)).2.2.1,
    (C10_amended.2.2 stHttpDemo (setNotWebReady stHttpDemo false) rfl).1⟩

end AutoStream
